import Mathlib

/-!
Verification of the memory/address-space subsystem of riscv-isa-sim-catfive
(src/riscv/devices.cc): the address-space bus, the sparse memory device, the
plugin registry and adapter, and the file-backed plugin.

Machine integers: `reg_t` and `size_t` are 64-bit unsigned; they are modelled
as `Nat`, with an explicit `% 2 ^ 64` wherever the C++ arithmetic can wrap.
-/

/-- Width bound of `reg_t` and `size_t` (both are 64-bit unsigned). -/
def UINT64_CEIL : Nat := 2 ^ 64

/-! ## Address-space bus (`bus_t`, devices.cc lines 11-58)

An `abstract_device_t` is a polymorphic capability: its `load` receives
(offset, length, buffer) and returns a success flag together with the buffer
after the call (the device may or may not write into it); its `store` receives
(offset, length, buffer) and returns a success flag.  The bus only forwards to
these functions, so their behaviour is left arbitrary. -/

structure abstract_device_t where
  load : Nat → Nat → List Nat → Bool × List Nat
  store : Nat → Nat → List Nat → Bool

/-- The bus's `std::map<reg_t, abstract_device_t*> devices`, embedded as an
association list sorted by strictly increasing base address (the `std::map`
key invariant; theorems carry it as a `Pairwise` hypothesis). -/
abbrev busmap : Type := List (Nat × abstract_device_t)

/-- Strictly increasing keys: the `std::map` ordering invariant. -/
def busmap.sorted (devs : busmap) : Prop :=
  List.Pairwise (fun p q : Nat × abstract_device_t => p.1 < q.1) devs

/-- The floor lookup of `bus_t::load`/`store`/`find_device`:
`devices.upper_bound(addr)` finds the first entry with base `> addr`; if it is
`begin()` (bus empty, or every base `> addr`) the lookup fails, otherwise the
iterator steps back one entry, to the last entry with base `≤ addr`.  On a
sorted list this is: fail if the head's base exceeds `addr`, otherwise take the
last entry of the tail with base `≤ addr`, falling back to the head. -/
def bus_floor : List (Nat × abstract_device_t) → Nat → Option (Nat × abstract_device_t)
  | [], _ => none
  | (b, d) :: rest, addr =>
    if addr < b then none
    else some ((bus_floor rest addr).getD (b, d))

/-- Embeds `bus_t::load` (devices.cc lines 21-36): floor lookup, then delegate with
device-relative offset; on a miss return `false` with the buffer untouched. -/
def bus_load (devs : busmap) (addr len : Nat) (bytes : List Nat) : Bool × List Nat :=
  match bus_floor devs addr with
  | none => (false, bytes)
  | some (b, d) => d.load (addr - b) len bytes

/-- Embeds `bus_t::store` (devices.cc lines 38-47). -/
def bus_store (devs : busmap) (addr len : Nat) (bytes : List Nat) : Bool :=
  match bus_floor devs addr with
  | none => false
  | some (b, d) => d.store (addr - b) len bytes

/-- On a bus where every base exceeds `addr` (the empty bus included), the
floor lookup fails. -/
theorem bus_floor_eq_none (devs : busmap) (addr : Nat)
    (h : ∀ p ∈ devs, addr < p.1) : bus_floor devs addr = none := by
  cases devs with
  | nil => rfl
  | cons hd tl =>
    obtain ⟨b, d⟩ := hd
    have hb : addr < b := h (b, d) (List.mem_cons_self _ _)
    simp [bus_floor, hb]

/-- On a sorted bus, the floor lookup returns exactly the entry whose base is
the greatest one not exceeding `addr`. -/
theorem bus_floor_eq_greatest (devs : busmap) (addr : Nat) (b : Nat)
    (d : abstract_device_t) (hsort : devs.sorted) (hmem : (b, d) ∈ devs)
    (hle : b ≤ addr) (hmax : ∀ p ∈ devs, p.1 ≤ addr → p.1 ≤ b) :
    bus_floor devs addr = some (b, d) := by
  induction devs with
  | nil => cases hmem
  | cons hd tl ih =>
    obtain ⟨b0, d0⟩ := hd
    rw [busmap.sorted, List.pairwise_cons] at hsort
    obtain ⟨hlt, hsort'⟩ := hsort
    rcases List.mem_cons.mp hmem with heq | htl
    · -- the target is the head entry; every tail base exceeds addr
      obtain ⟨rfl, rfl⟩ := Prod.mk.injEq .. ▸ heq
      have hnone : bus_floor tl addr = none := by
        apply bus_floor_eq_none
        intro p hp
        by_contra hcon
        have h1 : p.1 ≤ addr := Nat.le_of_not_lt hcon
        have h2 : p.1 ≤ b := hmax p (List.mem_cons_of_mem _ hp) h1
        exact Nat.lt_irrefl _ (Nat.lt_of_lt_of_le (hlt p hp) h2)
      simp [bus_floor, Nat.not_lt.mpr hle, hnone]
    · -- the target is in the tail
      have hb0 : b0 < b := hlt (b, d) htl
      have hb0le : b0 ≤ addr := Nat.le_of_lt (Nat.lt_of_lt_of_le hb0 hle)
      have hrec : bus_floor tl addr = some (b, d) :=
        ih hsort' htl (fun p hp h1 => hmax p (List.mem_cons_of_mem _ hp) h1)
      simp [bus_floor, Nat.not_lt.mpr hb0le, hrec]

/-- Claim C1: on a bus with strictly increasing bases, `load`/`store` at `addr`
delegate to the device whose base is the greatest value `≤ addr`, at offset
`addr - base`, returning that device's result verbatim; if the bus is empty or
every base exceeds `addr`, both return `false` and `load` leaves the buffer
unmodified. -/
theorem bus_routes_to_floor_device (devs : busmap) (addr len : Nat)
    (bytes : List Nat) (hsort : devs.sorted) :
    ((∀ p ∈ devs, addr < p.1) →
        bus_load devs addr len bytes = (false, bytes) ∧
        bus_store devs addr len bytes = false) ∧
    (∀ b d, (b, d) ∈ devs → b ≤ addr → (∀ p ∈ devs, p.1 ≤ addr → p.1 ≤ b) →
        bus_load devs addr len bytes = d.load (addr - b) len bytes ∧
        bus_store devs addr len bytes = d.store (addr - b) len bytes) := by
  constructor
  · intro hmiss
    have h := bus_floor_eq_none devs addr hmiss
    constructor
    · simp [bus_load, h]
    · simp [bus_store, h]
  · intro b d hmem hle hmax
    have h := bus_floor_eq_greatest devs addr b d hsort hmem hle hmax
    constructor
    · simp [bus_load, h]
    · simp [bus_store, h]

/-! ## Sparse memory device (`mem_t`, devices.cc lines 100-145)

A page is 4096 bytes; it is embedded as a function from in-page offset to byte
value (the `calloc`-ed buffer starts all-zero).  The `std::map<reg_t, char*>
sparse_memory_map` is embedded as a function from page number to an optional
page.  Writing through the pointer returned by `contents` mutates the page
held in the map, so a store chunk is modelled as re-inserting the updated
page. -/

def PGSIZE : Nat := 4096

def PGSHIFT : Nat := 12

/-- A lazily allocated page: in-page offset to byte value. -/
abbrev Page : Type := Nat → Nat

/-- The sparse page map: page number to allocated page, if any. -/
abbrev PageMap : Type := Nat → Option Page

/-- The fresh zero-filled page produced by `calloc(PGSIZE, 1)`. -/
def zero_page : Page := fun _ => 0

/-- Insert (or overwrite) a page in the sparse map. -/
def pm_insert (pm : PageMap) (ppn : Nat) (pg : Page) : PageMap :=
  fun k => if k = ppn then some pg else pm k

/-- The lookup-or-allocate step of `mem_t::contents` (devices.cc lines
134-145), at the granularity of a whole page: return the page for page number
`ppn` together with the (possibly extended) map.  `contents` itself returns
the pointer at the in-page offset; the offset bookkeeping is done at the call
sites below. -/
def contents_page (pm : PageMap) (ppn : Nat) : Page × PageMap :=
  match pm ppn with
  | none => (zero_page, pm_insert pm ppn zero_page)
  | some pg => (pg, pm)

/-- Models `memcpy(page + pgoff, bytes, n)`: the page after overwriting offsets
`pgoff ≤ off < pgoff + n` with the first `n` buffer bytes. -/
def page_write (pg : Page) (pgoff n : Nat) (bytes : List Nat) : Page :=
  fun off => if pgoff ≤ off ∧ off < pgoff + n then bytes.getD (off - pgoff) 0 else pg off

/-- Models `memcpy(bytes, page + pgoff, n)`: the `n` bytes read from the page at
offset `pgoff`. -/
def page_read (pg : Page) (pgoff n : Nat) : List Nat :=
  (List.range n).map (fun i => pg (pgoff + i))

/-- The copy loop of `mem_t::load_store` (devices.cc lines 118-129): while
bytes remain, copy `n = min(PGSIZE - addr % PGSIZE, len)` bytes between the
buffer and the page resolved by `contents`, then advance.  Returns the buffer
region `[0, len)` after the call together with the final page map.  The
bounds check performed before the loop guarantees that `addr + len ≤ sz <
2 ^ 64`, so the 64-bit additions in the loop cannot wrap and plain `Nat`
arithmetic is faithful. -/
def ls_loop (pm : PageMap) (addr len : Nat) (bytes : List Nat) (is_store : Bool) :
    List Nat × PageMap :=
  if h : len = 0 then ([], pm)
  else
    let n := min (PGSIZE - addr % PGSIZE) len
    let pr := contents_page pm (addr >>> PGSHIFT)
    let pgoff := addr % PGSIZE
    if is_store then
      let pg' := page_write pr.1 pgoff n bytes
      let rest := ls_loop (pm_insert pr.2 (addr >>> PGSHIFT) pg') (addr + n) (len - n)
        (bytes.drop n) true
      (bytes.take n ++ rest.1, rest.2)
    else
      let rest := ls_loop pr.2 (addr + n) (len - n) (bytes.drop n) false
      (page_read pr.1 pgoff n ++ rest.1, rest.2)
termination_by len
decreasing_by
  all_goals
    have h1 : addr % PGSIZE < PGSIZE := Nat.mod_lt _ (by decide)
    omega

/-- The state of one `mem_t`: fixed size and the sparse page map. -/
structure mem_t where
  sz : Nat
  pages : PageMap

/-- The `mem_t` constructor (devices.cc lines 100-105): rejects a size of zero
or one that is not a multiple of `PGSIZE` by throwing `std::runtime_error`. -/
def mem_mk (size : Nat) : Except String mem_t :=
  if size = 0 ∨ size % PGSIZE ≠ 0 then
    .error "memory size must be a positive multiple of 4 KiB"
  else
    .ok ⟨size, fun _ => none⟩

/-- Embeds `mem_t::load_store` (devices.cc lines 113-132).  The C++ test
`addr + len < addr || addr + len > sz` is 64-bit unsigned arithmetic, hence
the explicit `% 2 ^ 64`.  Returns (success flag, caller's buffer after the
call, memory after the call); a store never modifies the caller's buffer
(`bytes` is only read), a load overwrites its first `len` bytes. -/
def mem_load_store (m : mem_t) (addr len : Nat) (bytes : List Nat) (is_store : Bool) :
    Bool × List Nat × mem_t :=
  if (addr + len) % UINT64_CEIL < addr ∨ (addr + len) % UINT64_CEIL > m.sz then
    (false, bytes, m)
  else
    let r := ls_loop m.pages addr len bytes is_store
    (true, if is_store then bytes else r.1 ++ bytes.drop len, ⟨m.sz, r.2⟩)

/-- The observable byte at address `a`: the byte of the allocated page holding
`a`, or 0 when that page was never allocated (a fresh page is zero-filled, so
an absent page and a never-written page read alike). -/
def mem_read1 (pm : PageMap) (a : Nat) : Nat :=
  match pm (a >>> PGSHIFT) with
  | none => 0
  | some pg => pg (a % PGSIZE)

/-! ### Helper lemmas about pages and the copy loop -/

theorem shiftr_pgshift (a : Nat) : a >>> PGSHIFT = a / PGSIZE := by
  rw [Nat.shiftRight_eq_div_pow]
  norm_num [PGSIZE, PGSHIFT]

theorem UINT64_CEIL_eq : UINT64_CEIL = 18446744073709551616 := by
  norm_num [UINT64_CEIL]

theorem mem_read1_insert (pm : PageMap) (ppn : Nat) (pg : Page) (a : Nat) :
    mem_read1 (pm_insert pm ppn pg) a =
      if a >>> PGSHIFT = ppn then pg (a % PGSIZE) else mem_read1 pm a := by
  unfold mem_read1 pm_insert
  by_cases h : a >>> PGSHIFT = ppn <;> simp [h]

/-- The page handed out by `contents` reads, at the in-page offset of any
address of that page, the same byte the map read there before. -/
theorem contents_page_fst (pm : PageMap) (ppn a : Nat) (ha : a >>> PGSHIFT = ppn) :
    (contents_page pm ppn).1 (a % PGSIZE) = mem_read1 pm a := by
  unfold contents_page mem_read1
  rw [ha]
  cases h : pm ppn <;> simp [h, zero_page]

/-- Allocating a page inside `contents` never changes any observable byte:
the inserted page is zero-filled, exactly what an absent page reads as. -/
theorem contents_page_snd (pm : PageMap) (ppn a : Nat) :
    mem_read1 (contents_page pm ppn).2 a = mem_read1 pm a := by
  unfold contents_page
  cases h : pm ppn with
  | none =>
    simp only [mem_read1_insert]
    by_cases ha : a >>> PGSHIFT = ppn
    · rw [if_pos ha]
      unfold mem_read1
      rw [ha, h]
      simp [zero_page]
    · rw [if_neg ha]
  | some pg => rfl

/-- One unfolding step of a load chunk, buffer component. -/
theorem ls_loop_load_fst (pm : PageMap) (addr len : Nat) (bytes : List Nat)
    (h0 : len ≠ 0) :
    (ls_loop pm addr len bytes false).1 =
      page_read (contents_page pm (addr >>> PGSHIFT)).1 (addr % PGSIZE)
          (min (PGSIZE - addr % PGSIZE) len) ++
        (ls_loop (contents_page pm (addr >>> PGSHIFT)).2
          (addr + min (PGSIZE - addr % PGSIZE) len)
          (len - min (PGSIZE - addr % PGSIZE) len)
          (bytes.drop (min (PGSIZE - addr % PGSIZE) len)) false).1 := by
  conv_lhs => rw [ls_loop, dif_neg h0]
  rfl

/-- One unfolding step of a load chunk, page-map component. -/
theorem ls_loop_load_snd (pm : PageMap) (addr len : Nat) (bytes : List Nat)
    (h0 : len ≠ 0) :
    (ls_loop pm addr len bytes false).2 =
      (ls_loop (contents_page pm (addr >>> PGSHIFT)).2
        (addr + min (PGSIZE - addr % PGSIZE) len)
        (len - min (PGSIZE - addr % PGSIZE) len)
        (bytes.drop (min (PGSIZE - addr % PGSIZE) len)) false).2 := by
  conv_lhs => rw [ls_loop, dif_neg h0]
  rfl

/-- One unfolding step of a store chunk, page-map component. -/
theorem ls_loop_store_snd (pm : PageMap) (addr len : Nat) (bytes : List Nat)
    (h0 : len ≠ 0) :
    (ls_loop pm addr len bytes true).2 =
      (ls_loop
        (pm_insert (contents_page pm (addr >>> PGSHIFT)).2 (addr >>> PGSHIFT)
          (page_write (contents_page pm (addr >>> PGSHIFT)).1 (addr % PGSIZE)
            (min (PGSIZE - addr % PGSIZE) len) bytes))
        (addr + min (PGSIZE - addr % PGSIZE) len)
        (len - min (PGSIZE - addr % PGSIZE) len)
        (bytes.drop (min (PGSIZE - addr % PGSIZE) len)) true).2 := by
  conv_lhs => rw [ls_loop, dif_neg h0]
  rfl

/-- The copy loop of a load: it returns the `len` observable bytes starting at
`addr` and leaves every observable byte unchanged (it can only allocate fresh
zero pages). -/
theorem ls_loop_load_spec (len : Nat) : ∀ pm addr bytes,
    (ls_loop pm addr len bytes false).1 =
      (List.range len).map (fun i => mem_read1 pm (addr + i)) ∧
    ∀ a, mem_read1 (ls_loop pm addr len bytes false).2 a = mem_read1 pm a := by
  induction len using Nat.strong_induction_on with
  | _ len ih =>
    intro pm addr bytes
    by_cases h0 : len = 0
    · subst h0
      rw [ls_loop]
      simp
    · rw [ls_loop_load_fst pm addr len bytes h0, ls_loop_load_snd pm addr len bytes h0]
      set n := min (PGSIZE - addr % PGSIZE) len with hn
      have hpg : addr % PGSIZE < PGSIZE := Nat.mod_lt _ (by norm_num [PGSIZE])
      have hn1 : 1 ≤ n := by omega
      have hnlen : n ≤ len := Nat.min_le_right _ _
      have hnpg : n ≤ PGSIZE - addr % PGSIZE := Nat.min_le_left _ _
      obtain ⟨hrec1, hrec2⟩ := ih (len - n) (by omega) (contents_page pm (addr >>> PGSHIFT)).2
        (addr + n) (bytes.drop n)
      refine ⟨?_, ?_⟩
      · rw [hrec1]
        have hsplit : (List.range len).map (fun i => mem_read1 pm (addr + i)) =
            (List.range n).map (fun i => mem_read1 pm (addr + i)) ++
              (List.range (len - n)).map (fun i => mem_read1 pm (addr + n + i)) := by
          conv_lhs => rw [show len = n + (len - n) by omega]
          rw [List.range_add, List.map_append, List.map_map]
          congr 1
          apply List.map_congr_left
          intro i _
          simp only [Function.comp]
          congr 1
          omega
        rw [hsplit]
        congr 1
        · -- the first chunk reads from the page of addr
          unfold page_read
          apply List.map_congr_left
          intro i hi
          rw [List.mem_range] at hi
          have h1 : (addr + i) >>> PGSHIFT = addr >>> PGSHIFT := by
            rw [shiftr_pgshift, shiftr_pgshift]
            simp only [PGSIZE] at *
            omega
          have h2 : (addr + i) % PGSIZE = addr % PGSIZE + i := by
            simp only [PGSIZE] at *
            omega
          rw [← h2, contents_page_fst pm (addr >>> PGSHIFT) (addr + i) h1]
        · -- the tail chunk reads through the extended map
          apply List.map_congr_left
          intro i _
          rw [contents_page_snd]
      · intro a
        rw [hrec2, contents_page_snd]

/-- The copy loop of a store: afterwards the observable byte at `a` is the
stored byte `bytes[a - addr]` inside the window `[addr, addr + len)` and the
old byte outside it. -/
theorem ls_loop_store_spec (len : Nat) : ∀ pm addr bytes a,
    mem_read1 (ls_loop pm addr len bytes true).2 a =
      if addr ≤ a ∧ a < addr + len then bytes.getD (a - addr) 0 else mem_read1 pm a := by
  induction len using Nat.strong_induction_on with
  | _ len ih =>
    intro pm addr bytes a
    by_cases h0 : len = 0
    · subst h0
      rw [ls_loop]
      simp only [dif_pos, Nat.add_zero]
      rw [if_neg (by omega)]
    · rw [ls_loop_store_snd pm addr len bytes h0]
      have hpg : addr % PGSIZE < PGSIZE := Nat.mod_lt _ (by norm_num [PGSIZE])
      obtain ⟨n, hn, hn1, hnlen, hnpg⟩ :
          ∃ n, min (PGSIZE - addr % PGSIZE) len = n ∧ 1 ≤ n ∧ n ≤ len ∧
            n ≤ PGSIZE - addr % PGSIZE :=
        ⟨_, rfl, by omega, Nat.min_le_right _ _, Nat.min_le_left _ _⟩
      rw [hn]
      rw [ih (len - n) (by omega)]
      rw [mem_read1_insert, contents_page_snd]
      by_cases htail : addr + n ≤ a ∧ a < addr + n + (len - n)
      · -- covered by the recursive call: a later chunk wrote bytes[a - addr]
        rw [if_pos htail, if_pos (by omega)]
        rw [List.getD_eq_getElem?_getD, List.getD_eq_getElem?_getD, List.getElem?_drop]
        rw [show n + (a - (addr + n)) = a - addr by omega]
      · rw [if_neg htail]
        by_cases hpage : a >>> PGSHIFT = addr >>> PGSHIFT
        · rw [if_pos hpage]
          unfold page_write
          have hdiv : a / PGSIZE = addr / PGSIZE := by
            rw [shiftr_pgshift, shiftr_pgshift] at hpage
            exact hpage
          by_cases hwin : addr % PGSIZE ≤ a % PGSIZE ∧ a % PGSIZE < addr % PGSIZE + n
          · -- this chunk wrote the byte: a lies in [addr, addr + n)
            rw [if_pos hwin]
            have hina : addr ≤ a ∧ a < addr + len := by
              simp only [PGSIZE] at *
              omega
            rw [if_pos hina]
            congr 1
            simp only [PGSIZE] at *
            omega
          · -- same page, outside the written window: untouched
            rw [if_neg hwin, contents_page_fst pm (addr >>> PGSHIFT) a hpage]
            have houta : ¬(addr ≤ a ∧ a < addr + len) := by
              simp only [PGSIZE] at *
              omega
            rw [if_neg houta]
        · -- a different page entirely: untouched
          rw [if_neg hpage]
          have houta : ¬(addr ≤ a ∧ a < addr + len) := by
            rw [shiftr_pgshift, shiftr_pgshift] at hpage
            simp only [PGSIZE] at *
            omega
          rw [if_neg houta]

/-- When the request fits below the size (and the size fits in 64 bits, as a
`reg_t` value always does), the bounds check of `load_store` passes. -/
theorem mem_guard_passes (m : mem_t) (addr len : Nat) (hsz : m.sz < UINT64_CEIL)
    (hb : addr + len ≤ m.sz) :
    ¬((addr + len) % UINT64_CEIL < addr ∨ (addr + len) % UINT64_CEIL > m.sz) := by
  rw [Nat.mod_eq_of_lt (by omega)]
  omega

theorem map_getD_range (l : List Nat) :
    (List.range l.length).map (fun i => l.getD i 0) = l := by
  apply List.ext_getElem
  · simp
  · intro i h1 h2
    simp [List.getD_eq_getElem?_getD, List.getElem?_eq_getElem, h2]

/-- Claim C2: a request whose end overflows the 64-bit address type or exceeds
the device size makes `load_store` return false, with the caller's buffer, the
size and the page map all left exactly as they were: the failure has no
partial effect. -/
theorem mem_load_store_oob_no_effect (m : mem_t) (addr len : Nat) (bytes : List Nat)
    (is_store : Bool) (ha : addr < UINT64_CEIL) (hl : len < UINT64_CEIL)
    (hfail : UINT64_CEIL ≤ addr + len ∨ m.sz < addr + len) :
    mem_load_store m addr len bytes is_store = (false, bytes, m) := by
  have hguard : (addr + len) % UINT64_CEIL < addr ∨ (addr + len) % UINT64_CEIL > m.sz := by
    rw [UINT64_CEIL_eq] at *
    omega
  unfold mem_load_store
  rw [if_pos hguard]

/-- Claim C3: for an in-bounds range, a successful store of the bytes `B` at
`(addr, len)` followed by a load of the same range returns exactly `B` (the
loaded buffer's first `len` bytes are `B`; beyond `len` the caller's buffer is
untouched).  The range may span page boundaries. -/
theorem mem_store_load_roundtrip (m : mem_t) (addr len : Nat) (B buf : List Nat)
    (hsz : m.sz < UINT64_CEIL) (hb : addr + len ≤ m.sz) (hB : B.length = len) :
    (mem_load_store m addr len B true).1 = true ∧
    (mem_load_store (mem_load_store m addr len B true).2.2 addr len buf false).1 = true ∧
    (mem_load_store (mem_load_store m addr len B true).2.2 addr len buf false).2.1 =
      B ++ buf.drop len := by
  have hguard := mem_guard_passes m addr len hsz hb
  have hst : mem_load_store m addr len B true =
      (true, B, ⟨m.sz, (ls_loop m.pages addr len B true).2⟩) := by
    unfold mem_load_store
    rw [if_neg hguard]
    rfl
  rw [hst]
  dsimp only
  have hguard2 : ¬((addr + len) % UINT64_CEIL < addr ∨
      (addr + len) % UINT64_CEIL > (⟨m.sz, (ls_loop m.pages addr len B true).2⟩ : mem_t).sz) :=
    hguard
  have hld : mem_load_store (⟨m.sz, (ls_loop m.pages addr len B true).2⟩ : mem_t)
      addr len buf false =
      (true,
        (ls_loop (ls_loop m.pages addr len B true).2 addr len buf false).1 ++ buf.drop len,
        ⟨m.sz, (ls_loop (ls_loop m.pages addr len B true).2 addr len buf false).2⟩) := by
    unfold mem_load_store
    rw [if_neg hguard2]
    rfl
  rw [hld]
  dsimp only
  refine ⟨rfl, rfl, ?_⟩
  have hout := (ls_loop_load_spec len (ls_loop m.pages addr len B true).2 addr buf).1
  rw [hout]
  congr 1
  have hread : ∀ i, i < len →
      mem_read1 (ls_loop m.pages addr len B true).2 (addr + i) = B.getD i 0 := by
    intro i hi
    rw [ls_loop_store_spec len m.pages addr B (addr + i)]
    rw [if_pos (by omega)]
    congr 1
    omega
  calc (List.range len).map (fun i => mem_read1 (ls_loop m.pages addr len B true).2 (addr + i))
      = (List.range len).map (fun i => B.getD i 0) := by
        apply List.map_congr_left
        intro i hi
        rw [List.mem_range] at hi
        exact hread i hi
    _ = B := by
        rw [← hB]
        exact map_getD_range B

/-- Claim C4: on a freshly constructed device (no store performed yet) a load
of any in-bounds range succeeds and returns all-zero bytes. -/
theorem mem_fresh_load_zero (size : Nat) (m : mem_t) (addr len : Nat) (bytes : List Nat)
    (hmk : mem_mk size = .ok m) (hsz : size < UINT64_CEIL) (hb : addr + len ≤ size) :
    (mem_load_store m addr len bytes false).1 = true ∧
    (mem_load_store m addr len bytes false).2.1 =
      List.replicate len 0 ++ bytes.drop len := by
  have hm : m = ⟨size, fun _ => none⟩ := by
    unfold mem_mk at hmk
    by_cases h : size = 0 ∨ size % PGSIZE ≠ 0
    · rw [if_pos h] at hmk
      cases hmk
    · rw [if_neg h] at hmk
      cases hmk
      rfl
  subst hm
  have hguard := mem_guard_passes ⟨size, fun _ => none⟩ addr len hsz hb
  have hld : mem_load_store ⟨size, fun _ => none⟩ addr len bytes false =
      (true,
        (ls_loop (fun _ => none) addr len bytes false).1 ++ bytes.drop len,
        ⟨size, (ls_loop (fun _ => none) addr len bytes false).2⟩) := by
    unfold mem_load_store
    rw [if_neg hguard]
    rfl
  rw [hld]
  dsimp only
  refine ⟨rfl, ?_⟩
  have hout := (ls_loop_load_spec len (fun _ => none) addr bytes).1
  rw [hout]
  congr 1
  have hzero : ∀ i : Nat, mem_read1 (fun _ => none) (addr + i) = 0 := fun _ => rfl
  calc (List.range len).map (fun i => mem_read1 (fun _ => none) (addr + i))
      = (List.range len).map (fun _ => 0) := by
        apply List.map_congr_left
        intro i _
        exact hzero i
    _ = List.replicate len 0 := by
        rw [List.map_const']
        simp

/-- Claim C9: constructing a sparse memory device succeeds exactly when the
size is a positive multiple of 4096; otherwise it fails deterministically with
the configuration error message. -/
theorem mem_mk_ok_iff (size : Nat) :
    ((∃ m, mem_mk size = .ok m) ↔ 0 < size ∧ size % 4096 = 0) ∧
    (¬(0 < size ∧ size % 4096 = 0) →
      mem_mk size = .error "memory size must be a positive multiple of 4 KiB") := by
  unfold mem_mk
  simp only [PGSIZE]
  by_cases h : size = 0 ∨ size % 4096 ≠ 0
  · rw [if_pos h]
    refine ⟨⟨?_, ?_⟩, ?_⟩
    · rintro ⟨m, hm⟩
      cases hm
    · intro hc
      omega
    · intro _
      rfl
  · rw [if_neg h]
    refine ⟨⟨?_, ?_⟩, ?_⟩
    · intro _
      omega
    · intro _
      exact ⟨_, rfl⟩
    · intro hc
      omega

/-- Claim C10: a successful load changes no observable byte of the device —
the pages it may lazily allocate are zero-filled, reading the same as the
absent pages they replace. -/
theorem mem_load_preserves_contents (m : mem_t) (addr len : Nat) (bytes : List Nat)
    (hok : (mem_load_store m addr len bytes false).1 = true) :
    ∀ a, mem_read1 (mem_load_store m addr len bytes false).2.2.pages a =
      mem_read1 m.pages a := by
  unfold mem_load_store at *
  by_cases hguard : (addr + len) % UINT64_CEIL < addr ∨ (addr + len) % UINT64_CEIL > m.sz
  · rw [if_pos hguard] at hok
    cases hok
  · rw [if_neg hguard]
    intro a
    exact (ls_loop_load_spec len m.pages addr bytes).2 a

/-! ## Plugin registry and device adapter (devices.cc lines 60-98)

A plugin descriptor (`mmio_plugin_t`, a table of four function pointers) is
parameterized here by the type of the opaque per-instance handle (`void*` in
the source; `Option α` with `none` for the null pointer).  The process-wide
`mmio_plugin_map` (`std::map<std::string, mmio_plugin_t>`) is embedded as an
association list; lookup by key does not depend on element order, so the
`std::map` ordering is irrelevant to the claims and is not carried around. -/

structure mmio_plugin_t (α : Type) where
  alloc : String → Option α
  load : Option α → Nat → Nat → List Nat → Bool × List Nat
  store : Option α → Nat → Nat → List Nat → Bool
  dealloc : Option α → Unit

/-- The registry state: name to descriptor. -/
abbrev plugin_map (α : Type) : Type := List (String × mmio_plugin_t α)

/-- Embeds `register_mmio_plugin` (devices.cc lines 70-77): `emplace` refuses to
overwrite an existing key; when it reports no insertion the function throws
`std::runtime_error`, otherwise the new binding is added. -/
def register_mmio_plugin {α : Type} (m : plugin_map α) (name : String)
    (p : mmio_plugin_t α) : Except String (plugin_map α) :=
  if (m.lookup name).isSome then
    .error ("Plugin \"" ++ name ++ "\" already registered!")
  else
    .ok ((name, p) :: m)

/-- The plugin device adapter instance: the descriptor reference and the
handle produced by `alloc` (possibly the null pointer). -/
structure mmio_plugin_device_t (α : Type) where
  plugin : mmio_plugin_t α
  user_data : Option α

/-- The `mmio_plugin_device_t` constructor (devices.cc lines 79-83):
`mmio_plugin_map().at(name)` throws for an unknown name; then
`(*plugin.alloc)(args.c_str())` runs and its result — whatever it is, the
null pointer included — is stored as `user_data`.  The constructor performs
no check on that result. -/
def mmio_plugin_device_mk {α : Type} (m : plugin_map α) (name args : String) :
    Except String (mmio_plugin_device_t α) :=
  match m.lookup name with
  | none => .error "map::at: key not found"
  | some p => .ok ⟨p, p.alloc args⟩

/-- A plugin whose `alloc` always signals failure (returns the null pointer),
with inert load/store/dealloc entries. -/
def failing_plugin : mmio_plugin_t Nat :=
  ⟨fun _ => none, fun _ _ _ bytes => (false, bytes), fun _ _ _ _ => false, fun _ => ()⟩

/-- Claim C5 counterexample: with `failing_plugin` registered under "p",
`alloc("a")` signals failure, yet adapter construction succeeds and the
adapter retains the null handle — the claim that construction fails is false
on the code. -/
theorem mmio_plugin_device_mk_alloc_failure_succeeds :
    failing_plugin.alloc "a" = none ∧
    mmio_plugin_device_mk [("p", failing_plugin)] "p" "a" =
      .ok ⟨failing_plugin, none⟩ := by
  constructor
  · rfl
  · rfl

/-- Claim C5 (amended): whenever the name lookup succeeds, adapter
construction succeeds unconditionally and retains exactly `alloc`'s result as
the handle — in particular, when `alloc` signals failure by returning the
null handle, construction still succeeds and the null handle is retained. -/
theorem mmio_plugin_device_mk_retains_alloc_result {α : Type} (m : plugin_map α)
    (name args : String) (p : mmio_plugin_t α) (h : m.lookup name = some p) :
    mmio_plugin_device_mk m name args = .ok ⟨p, p.alloc args⟩ := by
  unfold mmio_plugin_device_mk
  rw [h]

/-- Claim C5 amended witness. -/
theorem mmio_plugin_device_mk_retains_alloc_result_witness :
    ([("p", failing_plugin)] : plugin_map Nat).lookup "p" = some failing_plugin ∧
    mmio_plugin_device_mk [("p", failing_plugin)] "p" "a" =
      .ok ⟨failing_plugin, failing_plugin.alloc "a"⟩ :=
  ⟨rfl, mmio_plugin_device_mk_retains_alloc_result [("p", failing_plugin)] "p" "a"
    failing_plugin rfl⟩

/-- Claim C8: registering a fresh name succeeds; a second registration of the
same name fails with the duplicate-registration error, and the lookup used at
device-construction time still yields the first descriptor, not the second. -/
theorem register_mmio_plugin_duplicate {α : Type} (m : plugin_map α)
    (name : String) (D D2 : mmio_plugin_t α) (hfresh : m.lookup name = none) :
    register_mmio_plugin m name D = .ok ((name, D) :: m) ∧
    register_mmio_plugin ((name, D) :: m) name D2 =
      .error ("Plugin \"" ++ name ++ "\" already registered!") ∧
    ((name, D) :: m).lookup name = some D := by
  refine ⟨?_, ?_, ?_⟩
  · unfold register_mmio_plugin
    rw [hfresh]
    rfl
  · unfold register_mmio_plugin
    rw [if_pos]
    unfold List.lookup
    simp
  · unfold List.lookup
    simp

/-- A second concrete descriptor, distinct from `failing_plugin`. -/
def second_plugin : mmio_plugin_t Nat :=
  ⟨fun _ => some 2, fun _ _ _ bytes => (true, bytes), fun _ _ _ _ => true, fun _ => ()⟩

/-- Claim C8 witness. -/
theorem register_mmio_plugin_duplicate_witness :
    ([] : plugin_map Nat).lookup "dup" = none ∧
    (register_mmio_plugin ([] : plugin_map Nat) "dup" failing_plugin =
        .ok [("dup", failing_plugin)] ∧
      register_mmio_plugin [("dup", failing_plugin)] "dup" second_plugin =
        .error ("Plugin \"" ++ "dup" ++ "\" already registered!") ∧
      ([("dup", failing_plugin)] : plugin_map Nat).lookup "dup" = some failing_plugin) :=
  ⟨rfl, register_mmio_plugin_duplicate [] "dup" failing_plugin second_plugin rfl⟩

/-! ## File-backed plugin (devices.cc lines 148-243)

`file_plugin_alloc` interleaves POSIX calls (`open`, `lseek`, `mmap`, `close`,
`malloc`) with its own control flow.  The outcomes of those calls are supplied
by an `os_env` record, and the function additionally returns the state of the
two OS resources the claims track: whether a file descriptor is still open and
whether a memory mapping is still established when the function returns.

POSIX facts built into the model:
- a failed `open` returns a negative descriptor and acquires nothing;
- `mmap` reports failure by returning `MAP_FAILED`, which is `(void*)-1`,
  not the null pointer; a successful `mmap` returns the nonzero address of an
  established mapping (addresses are modelled as `Int`, with 0 for `NULL` and
  -1 for `MAP_FAILED`);
- `close` releases the descriptor even when it reports an error (the Linux
  behaviour the simulator runs on);
- `munmap` releases the mapping. -/

/-- POSIX `MAP_FAILED`, i.e. `(void*)-1`. -/
def MAP_FAILED : Int := -1

/-- Outcomes of the OS calls made during one `file_plugin_alloc` run. -/
structure os_env where
  open_result : Int
  file_length : Nat
  mmap_fails : Bool
  mmap_addr : Int
  close_fails : Bool
  malloc_fails : Bool

/-- Which of the two OS resources are still held at a given moment. -/
structure os_state where
  fd_open : Bool
  mapped : Bool

/-- The per-instance handle built on the success path (`struct
file_plugin_data`). -/
structure file_plugin_data where
  fd : Int
  addr : Int
  length : Nat
  writable : Bool

/-- The flag parsing of `file_plugin_alloc` (devices.cc lines 156-171):
`strchr` splits at the first colon.  Returns the characters before the first
colon and those after it, or `none` when the string has no colon. -/
def split_at_colon : List Char → Option (List Char × List Char)
  | [] => none
  | c :: rest =>
    if c = ':' then some ([], rest)
    else
      match split_at_colon rest with
      | none => none
      | some (a, b) => some (c :: a, b)

/-- The argument grammar `[<flags>:]<path>`: no colon means no flags and the
whole string is the path; otherwise every flag character must be `w` (any
other character is a parse failure, returning the null handle), and `writable`
is set when at least one `w` was seen.  Returns `(path, writable)`. -/
def parse_file_args (args : String) : Option (List Char × Bool) :=
  match split_at_colon args.data with
  | none => some (args.data, false)
  | some (flags, path) =>
    if flags.all (fun c => c = 'w') then some (path, !flags.isEmpty)
    else none

/-- Embeds `file_plugin_alloc` (devices.cc lines 155-205), over the outcomes in
`env`.  Returns the produced handle (`none` for the null pointer) and the
final resource state.  Control flow step by step:
parse failure returns null before anything is acquired; `open` failure
acquires nothing; zero `lseek` length closes the descriptor and returns null;
the mmap result is compared against the null pointer — NOT against
`MAP_FAILED` — so a failed mapping passes the check; a `close` error returns
null without any `munmap`; a `malloc` failure unmaps and returns null; the
success path returns the populated handle. -/
def file_plugin_alloc (env : os_env) (args : String) :
    Option file_plugin_data × os_state :=
  match parse_file_args args with
  | none => (none, ⟨false, false⟩)
  | some (_, writable) =>
    let fd := env.open_result
    if fd < 0 then
      (none, ⟨false, false⟩)
    else
      let length := env.file_length
      if length = 0 then
        -- close(fd), its error ignored
        (none, ⟨false, false⟩)
      else
        let addr : Int := if env.mmap_fails then MAP_FAILED else env.mmap_addr
        -- a mapping is established exactly when mmap succeeded
        let mapped := !env.mmap_fails
        if addr = 0 then
          -- the code's (ineffective) failure check; close(fd), error ignored
          (none, ⟨false, mapped⟩)
        else
          -- close(fd): the descriptor is released even on error
          if env.close_fails then
            -- return NULL with no munmap: the mapping stays established
            (none, ⟨false, mapped⟩)
          else
            if env.malloc_fails then
              -- munmap(addr, length), then return NULL
              (none, ⟨false, false⟩)
            else
              (some ⟨fd, addr, length, writable⟩, ⟨false, mapped⟩)

/-- Claim C6 (code bug at devices.cc lines 190-192): when `close` reports an
error after the mapping has been established, `file_plugin_alloc` returns the
null handle WITHOUT unmapping — the failure path leaks the established
mapping, contradicting the claim that every acquired OS resource is released
before failure is signalled.  Environment: `open` yields descriptor 3, the
file is 16 bytes, `mmap` succeeds at address 4096, `close` fails. -/
theorem file_plugin_alloc_close_failure_leaks_mapping :
    (file_plugin_alloc ⟨3, 16, false, 4096, true, false⟩ "f").1 = none ∧
    (file_plugin_alloc ⟨3, 16, false, 4096, true, false⟩ "f").2 = ⟨false, true⟩ := by
  constructor
  · rfl
  · rfl

/-- Claim C7 (code bug at devices.cc lines 184-188): POSIX `mmap` reports
failure by returning `MAP_FAILED` (`(void*)-1`), but the code compares the
result against the null pointer, so a failed mapping passes the check and
`alloc` returns a handle built from `MAP_FAILED` instead of returning
failure.  Environment: `open` yields descriptor 3, the file is 16 bytes,
`mmap` fails, `close` and `malloc` succeed. -/
theorem file_plugin_alloc_mmap_failure_not_detected :
    (⟨3, 16, true, 0, false, false⟩ : os_env).mmap_fails = true ∧
    (file_plugin_alloc ⟨3, 16, true, 0, false, false⟩ "f").1 =
      some ⟨3, MAP_FAILED, 16, false⟩ := by
  constructor
  · rfl
  · rfl

/-! ## Witnesses: the claim theorems above applied at concrete inputs -/

/-- A device that records the offset it was called with. -/
def devA : abstract_device_t :=
  ⟨fun off _ bytes => (true, off :: bytes), fun _ _ _ => true⟩

/-- A device that refuses everything. -/
def devB : abstract_device_t :=
  ⟨fun _ _ bytes => (false, bytes), fun _ _ _ => false⟩

/-- The two-device bus of the spec's first concrete scenario. -/
def demo_bus : busmap := [(0x1000, devA), (0x2000, devB)]

/-- Claim C1 witness: the scenario bus is sorted, and the routing theorem
applies to it at address 0x1500. -/
theorem bus_routes_to_floor_device_witness :
    demo_bus.sorted ∧
    (((∀ p ∈ demo_bus, 0x1500 < p.1) →
        bus_load demo_bus 0x1500 4 [7] = (false, [7]) ∧
        bus_store demo_bus 0x1500 4 [7] = false) ∧
      (∀ b d, (b, d) ∈ demo_bus → b ≤ 0x1500 →
        (∀ p ∈ demo_bus, p.1 ≤ 0x1500 → p.1 ≤ b) →
        bus_load demo_bus 0x1500 4 [7] = d.load (0x1500 - b) 4 [7] ∧
        bus_store demo_bus 0x1500 4 [7] = d.store (0x1500 - b) 4 [7])) :=
  ⟨by norm_num [demo_bus, busmap.sorted, List.pairwise_cons],
   bus_routes_to_floor_device demo_bus 0x1500 4 [7]
     (by norm_num [demo_bus, busmap.sorted, List.pairwise_cons])⟩

/-- Claim C2 witness: a request at the top of the 64-bit address space whose
end wraps around. -/
theorem mem_load_store_oob_no_effect_witness :
    (2 ^ 64 - 4 : Nat) < UINT64_CEIL ∧ (8 : Nat) < UINT64_CEIL ∧
    (UINT64_CEIL ≤ (2 ^ 64 - 4) + 8 ∨
      (⟨4096, fun _ => none⟩ : mem_t).sz < (2 ^ 64 - 4) + 8) ∧
    mem_load_store ⟨4096, fun _ => none⟩ (2 ^ 64 - 4) 8 [1, 2] false =
      (false, [1, 2], ⟨4096, fun _ => none⟩) :=
  ⟨by norm_num [UINT64_CEIL], by norm_num [UINT64_CEIL],
   by norm_num [UINT64_CEIL],
   mem_load_store_oob_no_effect ⟨4096, fun _ => none⟩ (2 ^ 64 - 4) 8 [1, 2] false
     (by norm_num [UINT64_CEIL]) (by norm_num [UINT64_CEIL])
     (by norm_num [UINT64_CEIL])⟩

/-- Claim C3 witness: the spec's second concrete scenario — a two-page device,
a store of 8 bytes at 4090 spanning the page boundary, then a load of the same
range. -/
theorem mem_store_load_roundtrip_witness :
    (⟨8192, fun _ => none⟩ : mem_t).sz < UINT64_CEIL ∧ 4090 + 8 ≤ 8192 ∧
    ([1, 2, 3, 4, 5, 6, 7, 8] : List Nat).length = 8 ∧
    ((mem_load_store ⟨8192, fun _ => none⟩ 4090 8 [1, 2, 3, 4, 5, 6, 7, 8] true).1 = true ∧
      (mem_load_store
        (mem_load_store ⟨8192, fun _ => none⟩ 4090 8 [1, 2, 3, 4, 5, 6, 7, 8] true).2.2
        4090 8 [0, 0, 0, 0, 0, 0, 0, 0] false).1 = true ∧
      (mem_load_store
        (mem_load_store ⟨8192, fun _ => none⟩ 4090 8 [1, 2, 3, 4, 5, 6, 7, 8] true).2.2
        4090 8 [0, 0, 0, 0, 0, 0, 0, 0] false).2.1 =
        [1, 2, 3, 4, 5, 6, 7, 8] ++ List.drop 8 [0, 0, 0, 0, 0, 0, 0, 0]) :=
  ⟨by norm_num [UINT64_CEIL], by norm_num, rfl,
   mem_store_load_roundtrip ⟨8192, fun _ => none⟩ 4090 8 [1, 2, 3, 4, 5, 6, 7, 8]
     [0, 0, 0, 0, 0, 0, 0, 0] (by norm_num [UINT64_CEIL]) (by norm_num) rfl⟩

/-- Claim C4 witness: a fresh one-page device, loading 4 bytes at 100. -/
theorem mem_fresh_load_zero_witness :
    mem_mk 4096 = .ok ⟨4096, fun _ => none⟩ ∧ (4096 : Nat) < UINT64_CEIL ∧
    100 + 4 ≤ 4096 ∧
    ((mem_load_store ⟨4096, fun _ => none⟩ 100 4 [9, 9, 9, 9] false).1 = true ∧
      (mem_load_store ⟨4096, fun _ => none⟩ 100 4 [9, 9, 9, 9] false).2.1 =
        List.replicate 4 0 ++ List.drop 4 [9, 9, 9, 9]) :=
  ⟨rfl, by norm_num [UINT64_CEIL], by norm_num,
   mem_fresh_load_zero 4096 ⟨4096, fun _ => none⟩ 100 4 [9, 9, 9, 9] rfl
     (by norm_num [UINT64_CEIL]) (by norm_num)⟩

/-- Claim C10 witness: a successful 2-byte load on a fresh device, observed at
address 123. -/
theorem mem_load_preserves_contents_witness :
    (mem_load_store ⟨4096, fun _ => none⟩ 0 2 [5, 6] false).1 = true ∧
    mem_read1 (mem_load_store ⟨4096, fun _ => none⟩ 0 2 [5, 6] false).2.2.pages 123 =
      mem_read1 (⟨4096, fun _ => none⟩ : mem_t).pages 123 :=
  ⟨rfl, mem_load_preserves_contents ⟨4096, fun _ => none⟩ 0 2 [5, 6] rfl 123⟩
